import Mathlib

/-!
# Flight API — verification of the query-and-booking core

Shallow embedding of `src/server.ts` (an Express HTTP service over a static
in-memory dataset of routes and flights).

Modelling conventions:

* The `routes` store is a JS `Map` keyed by `route_id`; all handlers iterate
  it in insertion order, so we model the store as a `List Route` in that
  order.  (The claims never depend on key-based lookup of routes.)
* JS numbers holding seat counts, prices and seat requests are modelled as
  `Int` (the handlers never produce fractions from integer inputs).
* `new Date(s).getTime()` / `Date.parse(s)` — calendar parsing done by the
  JS runtime, external to the repository — is modelled by an explicit
  parameter `getTime : String → Int` giving the epoch milliseconds of a
  timestamp string.  The handlers only combine these values arithmetically.
* `fd.arrivalAt <= fa.departureAt` in the connection handler is a JS string
  comparison (UTF-16 code-unit lexicographic); on the ASCII timestamp
  strings of this API it coincides with the lexicographic order of the
  character lists (`String.data`), which is also Lean's `String` order
  (`String.le_iff_toList_le`, see `strLe_data`).
* `(gapMs) / (1000*60*60) < 24` is a JS float division; for integer
  millisecond gaps in the exactly-representable range it is equivalent to
  `gapMs < 86400000`, which is how we render it.
* The layover string `(gapMs)/(1000*60) + " minutes"` prints the JS float
  `gapMs/60000`.  We render it with integer division
  (`toString (gapMs / 60000)`), which agrees with JS exactly whenever the
  gap is a whole number of minutes (a JS integer-valued double prints with
  no fractional part); theorems about the layover text concern that case.
* The direct-flight handler collects results in a `Set<Flight>` keyed by
  object identity.  Every flight object reached in the scan is a distinct
  JSON object reached exactly once, so the `Set` never merges anything and
  `Array.from` returns first-discovery order; we model it as a plain list.
* HTTP replies are modelled by `Resp`: `success body` for `res.json(body)`
  (status 200) and `failure status error` for
  `res.status(status).json({error})`.
-/

/-- `prices` object of a flight (source lines 17–21). -/
structure Prices where
  currency : String
  adult : Int
  child : Int
deriving DecidableEq, Repr

/-- `Flight` interface (source lines 12–22). -/
structure Flight where
  flight_id : String
  departureAt : String
  arrivalAt : String
  availableSeats : Int
  prices : Prices
deriving DecidableEq, Repr

/-- `Route` interface (source lines 24–29). -/
structure Route where
  route_id : String
  departureDestination : String
  arrivalDestination : String
  itineraries : List Flight
deriving DecidableEq, Repr

/-- An HTTP reply: `success` is `res.json(body)` (200), `failure s e` is
`res.status(s).json({error: e})`. -/
inductive Resp (α : Type) where
  | success (body : α)
  | failure (status : Nat) (error : String)
deriving DecidableEq, Repr

/-- The booking confirmation object built at source lines 113–122. -/
structure Confirmation where
  name : String
  flightId : String
  numSeats : Int
  totalPrice : Int
  departure : String
  arrival : String
  departureTime : String
  arrivalTime : String
deriving DecidableEq, Repr

/-! ## Booking (`POST /book`, source lines 92–124)

The handler does `routes.forEach(route => route.itineraries.forEach(flight =>
if (flight.flight_id === flightId) { bookedFlight = flight; bookedRoute =
route }))`: each later match overwrites the earlier one, so the flight (and
route) used is the LAST match in scan order, and on success that one object
is mutated in place (`bookedFlight.availableSeats -= numSeats`).

We embed the scan as structural recursion that inspects the TAIL first
(first match of the reversed scan = last match of the forward scan) and
returns, besides the matched route and flight, the store with `g` applied to
the matched flight — the in-place mutation made explicit. -/

/-- Scan a list of flights for the last one with id `fid`; return it together
with the list in which it has been replaced by `g` of it. -/
def scanFlights (fid : String) (g : Flight → Flight) :
    List Flight → Option (Flight × List Flight)
  | [] => none
  | f :: fs =>
    match scanFlights fid g fs with
    | some (f0, fs') => some (f0, f :: fs')
    | none => if f.flight_id = fid then some (f, g f :: fs) else none

/-- Scan the whole store for the last flight with id `fid` (later routes win,
and within a route later itinerary entries win, exactly as the nested
`forEach` overwrite does); return the matched route, the matched flight, and
the store with `g` applied to that one flight. -/
def scanRoutes (fid : String) (g : Flight → Flight) :
    List Route → Option (Route × Flight × List Route)
  | [] => none
  | r :: rs =>
    match scanRoutes fid g rs with
    | some (ro, f, rs') => some (ro, f, r :: rs')
    | none =>
      match scanFlights fid g r.itineraries with
      | some (f, its') => some (r, f, { r with itineraries := its' } :: rs)
      | none => none

/-- The last flight with id `fid` in a flight list (pure lookup, no update). -/
def findFlightIn (fid : String) : List Flight → Option Flight
  | [] => none
  | f :: fs =>
    match findFlightIn fid fs with
    | some f0 => some f0
    | none => if f.flight_id = fid then some f else none

/-- The `bookedRoute`/`bookedFlight` pair the handler's scan ends with:
the last match over all routes' flights, `none` when no flight matches. -/
def findFlight (fid : String) : List Route → Option (Route × Flight)
  | [] => none
  | r :: rs =>
    match findFlight fid rs with
    | some p => some p
    | none =>
      match findFlightIn fid r.itineraries with
      | some f => some (r, f)
      | none => none

/-- `POST /book` (source lines 92–124): scan for the flight; 404 if none,
400 if `availableSeats < numSeats`, otherwise decrement the matched flight's
seats and reply with the priced confirmation.  Returns the reply together
with the store after the request. -/
def book (store : List Route) (name flightId : String) (numSeats : Int) :
    Resp Confirmation × List Route :=
  match scanRoutes flightId
      (fun f => { f with availableSeats := f.availableSeats - numSeats }) store with
  | none => (.failure 404 "Flight not found", store)
  | some (route, f, store') =>
    if f.availableSeats < numSeats then
      (.failure 400 "Not enough seats available", store)
    else
      (.success
        { name := name
          flightId := flightId
          numSeats := numSeats
          totalPrice := numSeats * f.prices.adult
          departure := route.departureDestination
          arrival := route.arrivalDestination
          departureTime := f.departureAt
          arrivalTime := f.arrivalAt }, store')

/-- Run a sequence of booking requests `(name, flightId, numSeats)` against
the store, threading the mutated store through. -/
def bookAll (store : List Route) : List (String × String × Int) → List Route
  | [] => store
  | (n, fid, k) :: reqs => bookAll (book store n fid k).2 reqs

/-- All flights of the store in scan order (routes in insertion order, each
route's itineraries in order). -/
def allFlights (store : List Route) : List Flight :=
  store.flatMap Route.itineraries

/-- The seat invariant of the spec: every flight of the store has a
non-negative available-seat count. -/
def SeatsNonneg (store : List Route) : Prop :=
  ∀ r ∈ store, ∀ f ∈ r.itineraries, 0 ≤ f.availableSeats

/-- The total price carried by a successful booking reply, `none` on an
error reply. -/
def returnedTotalPrice : Resp Confirmation → Option Int
  | .success c => some c.totalPrice
  | .failure _ _ => none

/-! ## Direct flights (`GET /direct-flights/:departure/:arrival`, source
lines 55–87)

Query parameters `departureTime`/`arrivalTime` are modelled as
`Option String` (`none` = absent; a JS falsy empty string behaves like
absent, which `none` also covers).  `Math.abs(hintMs - flightMs) <= 86400000`
is the 24-hour window, boundary inclusive. -/

/-- The filter body at source lines 67–76 for one flight: seats available
and, for each hint that is present, the corresponding timestamp within
86,400,000 ms of the hint. -/
def directCond (getTime : String → Int) (departureTime arrivalTime : Option String)
    (f : Flight) : Bool :=
  decide (0 < f.availableSeats) &&
  (match departureTime with
   | none => true
   | some t => decide (|getTime t - getTime f.departureAt| ≤ 86400000)) &&
  (match arrivalTime with
   | none => true
   | some t => decide (|getTime t - getTime f.arrivalAt| ≤ 86400000))

/-- Source lines 60–80: routes whose endpoints match exactly, then their
flights passing `directCond`, in first-discovery order. -/
def directFlights (getTime : String → Int) (store : List Route)
    (departure arrival : String) (departureTime arrivalTime : Option String) :
    List Flight :=
  let directRoutes := store.filter fun r =>
    r.departureDestination == departure && r.arrivalDestination == arrival
  directRoutes.flatMap fun r =>
    r.itineraries.filter (directCond getTime departureTime arrivalTime)

/-- Source lines 82–87: non-empty result is sent as-is, empty result becomes
a 404 error reply. -/
def directFlightsEndpoint (getTime : String → Int) (store : List Route)
    (departure arrival : String) (departureTime arrivalTime : Option String) :
    Resp (List Flight) :=
  let directFlights := directFlights getTime store departure arrival departureTime arrivalTime
  if directFlights.length > 0 then .success directFlights
  else .failure 404 "No direct flights available"

/-! ## Connecting flights
(`GET /connection-flights/:departureDestination/:arrivalDestination`,
source lines 127–206) -/

/-- The pairing condition at source lines 152–161: shared layover point,
string-ordered times, gap strictly under 24 h, upper bound from the
departure hint when present, exact string match with the arrival hint when
present. -/
def connCond (getTime : String → Int) (departureTime arrivalTime : Option String)
    (d a : Route) (fd fa : Flight) : Bool :=
  d.arrivalDestination == a.departureDestination &&
  decide (fd.arrivalAt.data ≤ fa.departureAt.data) &&
  decide (getTime fa.departureAt - getTime fd.arrivalAt < 86400000) &&
  (match departureTime with
   | none => true
   | some t => decide (getTime fd.departureAt ≤ getTime t + 86400000)) &&
  (match arrivalTime with
   | none => true
   | some t => fa.arrivalAt == t)

/-- The layover text at source lines 163–166: the millisecond gap divided by
60,000, with `" minutes"` appended (see the header note on the JS float). -/
def minutesString (gapMs : Int) : String :=
  toString (gapMs / 60000) ++ " minutes"

/-- An element of the `connectingFlights` array pushed at source lines
168–173. -/
structure RawConn where
  departureFlight : Flight
  arrivalFlight : Flight
  layoverTime : String
  route : Route
deriving DecidableEq, Repr

/-- One leg of the synthesized route description (source lines 183–191). -/
structure Leg where
  departureDestination : String
  arrivalDestination : String
deriving DecidableEq, Repr

/-- The `route` field of a formatted connection entry. -/
structure ConnRoute where
  departureRoute : Leg
  arrivalRoute : Leg
deriving DecidableEq, Repr

/-- A formatted connection entry as returned at source lines 193–201. -/
structure FormattedConn where
  departureFlight : Flight
  arrivalFlight : Flight
  layoverTime : String
  route : ConnRoute
deriving DecidableEq, Repr

/-- The nested `forEach` loops at source lines 148–178: every
(departing route, arriving route, departing flight, arriving flight) tuple
in that iteration order, pushed when `connCond` holds. -/
def findConnectionsRaw (getTime : String → Int) (store : List Route)
    (departureDestination arrivalDestination : String)
    (departureTime arrivalTime : Option String) : List RawConn :=
  let departingRoutes := store.filter fun r =>
    r.departureDestination == departureDestination
  let arrivingRoutes := store.filter fun r =>
    r.arrivalDestination == arrivalDestination
  departingRoutes.flatMap fun d =>
    arrivingRoutes.flatMap fun a =>
      d.itineraries.flatMap fun fd =>
        a.itineraries.flatMap fun fa =>
          if connCond getTime departureTime arrivalTime d a fd fa then
            [{ departureFlight := fd
               arrivalFlight := fa
               layoverTime :=
                 minutesString (getTime fa.departureAt - getTime fd.arrivalAt)
               route := d }]
          else []

/-- The `map` at source lines 182–202: keep the flights and layover text,
replace the stored departing route by the two synthesized legs — leg 2 ends
at the REQUESTED arrival destination, not at any field of the arriving
route. -/
def formatConn (arrivalDestination : String) (c : RawConn) : FormattedConn :=
  { departureFlight := c.departureFlight
    arrivalFlight := c.arrivalFlight
    layoverTime := c.layoverTime
    route :=
      { departureRoute :=
          { departureDestination := c.route.departureDestination
            arrivalDestination := c.route.arrivalDestination }
        arrivalRoute :=
          { departureDestination := c.route.arrivalDestination
            arrivalDestination := arrivalDestination } } }

/-- The connection handler's reply value (source line 205), always sent with
status 200 — even when the list is empty. -/
def findConnections (getTime : String → Int) (store : List Route)
    (departureDestination arrivalDestination : String)
    (departureTime arrivalTime : Option String) : List FormattedConn :=
  (findConnectionsRaw getTime store departureDestination arrivalDestination
      departureTime arrivalTime).map (formatConn arrivalDestination)

/-- `GET /connection-flights/...` replies `res.json(formattedFlights)`
unconditionally: there is no error branch. -/
def connectionFlightsEndpoint (getTime : String → Int) (store : List Route)
    (departureDestination arrivalDestination : String)
    (departureTime arrivalTime : Option String) : Resp (List FormattedConn) :=
  .success (findConnections getTime store departureDestination
    arrivalDestination departureTime arrivalTime)

/-! ## Lemmas about the booking scan -/

theorem scanFlights_eq_none {fid : String} {g : Flight → Flight} {l : List Flight} :
    scanFlights fid g l = none ↔ ∀ f ∈ l, f.flight_id ≠ fid := by
  induction l with
  | nil => simp [scanFlights]
  | cons f fs ih =>
    cases h : scanFlights fid g fs with
    | none =>
      rw [h] at ih
      have hall := ih.mp rfl
      simp only [scanFlights, h, List.forall_mem_cons]
      by_cases hid : f.flight_id = fid
      · simp [hid]
      · simp only [hid, if_neg hid, ne_eq, not_false_iff, true_and]
        exact iff_of_true rfl hall
    | some p =>
      obtain ⟨f0, fs'⟩ := p
      rw [h] at ih
      have hnall : ¬ ∀ x ∈ fs, x.flight_id ≠ fid := by
        intro hall
        exact Option.noConfusion (ih.mpr hall)
      simp only [scanFlights, h, List.forall_mem_cons]
      constructor
      · intro hx; exact Option.noConfusion hx
      · intro hx; exact absurd hx.2 hnall

theorem findFlightIn_eq_none {fid : String} {l : List Flight} :
    findFlightIn fid l = none ↔ ∀ f ∈ l, f.flight_id ≠ fid := by
  induction l with
  | nil => simp [findFlightIn]
  | cons f fs ih =>
    cases h : findFlightIn fid fs with
    | none =>
      rw [h] at ih
      have hall := ih.mp rfl
      simp only [findFlightIn, h, List.forall_mem_cons]
      by_cases hid : f.flight_id = fid
      · simp [hid]
      · simp only [hid, if_neg hid, ne_eq, not_false_iff, true_and]
        exact iff_of_true rfl hall
    | some f0 =>
      rw [h] at ih
      have hnall : ¬ ∀ x ∈ fs, x.flight_id ≠ fid := by
        intro hall
        exact Option.noConfusion (ih.mpr hall)
      simp only [findFlightIn, h, List.forall_mem_cons]
      constructor
      · intro hx; exact Option.noConfusion hx
      · intro hx; exact absurd hx.2 hnall

theorem scanRoutes_eq_none {fid : String} {g : Flight → Flight} {rs : List Route} :
    scanRoutes fid g rs = none ↔ ∀ r ∈ rs, ∀ f ∈ r.itineraries, f.flight_id ≠ fid := by
  induction rs with
  | nil => simp [scanRoutes]
  | cons r rs ih =>
    cases h : scanRoutes fid g rs with
    | none =>
      rw [h] at ih
      have hall := ih.mp rfl
      cases hf : scanFlights fid g r.itineraries with
      | none =>
        simp only [scanRoutes, h, hf, List.forall_mem_cons]
        constructor
        · intro _; exact ⟨scanFlights_eq_none.mp hf, hall⟩
        · intro _; trivial
      | some p =>
        obtain ⟨f0, its'⟩ := p
        have hnall : ¬ ∀ f ∈ r.itineraries, f.flight_id ≠ fid := by
          intro hall'
          rw [scanFlights_eq_none.mpr hall'] at hf
          exact Option.noConfusion hf
        simp only [scanRoutes, h, hf, List.forall_mem_cons]
        constructor
        · intro hx; exact Option.noConfusion hx
        · intro hx; exact absurd hx.1 hnall
    | some p =>
      obtain ⟨ro, f0, rs'⟩ := p
      rw [h] at ih
      have hnall : ¬ ∀ x ∈ rs, ∀ f ∈ x.itineraries, f.flight_id ≠ fid := by
        intro hall
        exact Option.noConfusion (ih.mpr hall)
      simp only [scanRoutes, h, List.forall_mem_cons]
      constructor
      · intro hx; exact Option.noConfusion hx
      · intro hx; exact absurd hx.2 hnall

theorem scanFlights_fst {fid : String} {g : Flight → Flight} {l : List Flight} :
    (scanFlights fid g l).map Prod.fst = findFlightIn fid l := by
  induction l with
  | nil => simp [scanFlights, findFlightIn]
  | cons f fs ih =>
    cases h : scanFlights fid g fs with
    | none =>
      rw [h] at ih
      simp at ih
      simp only [scanFlights, findFlightIn, h, ← ih]
      by_cases hid : f.flight_id = fid <;> simp [hid]
    | some p =>
      obtain ⟨f0, fs'⟩ := p
      rw [h] at ih
      simp at ih
      simp [scanFlights, findFlightIn, h, ← ih]

theorem scanRoutes_fst {fid : String} {g : Flight → Flight} {rs : List Route} :
    (scanRoutes fid g rs).map (fun x => (x.1, x.2.1)) = findFlight fid rs := by
  induction rs with
  | nil => simp [scanRoutes, findFlight]
  | cons r rs ih =>
    cases h : scanRoutes fid g rs with
    | none =>
      rw [h] at ih
      simp at ih
      cases hf : scanFlights fid g r.itineraries with
      | none =>
        have hin : findFlightIn fid r.itineraries = none := by
          rw [← scanFlights_fst (g := g), hf]; rfl
        simp [scanRoutes, findFlight, h, hf, ← ih, hin]
      | some p =>
        obtain ⟨f0, its'⟩ := p
        have hin : findFlightIn fid r.itineraries = some f0 := by
          rw [← scanFlights_fst (g := g), hf]; rfl
        simp [scanRoutes, findFlight, h, hf, ← ih, hin]
    | some p =>
      obtain ⟨ro, f0, rs'⟩ := p
      rw [h] at ih
      simp at ih
      simp [scanRoutes, findFlight, h, ← ih]

theorem scanFlights_last {fid : String} {g : Flight → Flight} {l1 l2 : List Flight}
    {f : Flight} (hf : f.flight_id = fid) (h2 : ∀ x ∈ l2, x.flight_id ≠ fid) :
    scanFlights fid g (l1 ++ f :: l2) = some (f, l1 ++ g f :: l2) := by
  induction l1 with
  | nil =>
    have h0 : scanFlights fid g l2 = none := scanFlights_eq_none.mpr h2
    simp [scanFlights, h0, hf]
  | cons x l1 ih =>
    simp [scanFlights, ih]

theorem findFlightIn_last {fid : String} {l1 l2 : List Flight}
    {f : Flight} (hf : f.flight_id = fid) (h2 : ∀ x ∈ l2, x.flight_id ≠ fid) :
    findFlightIn fid (l1 ++ f :: l2) = some f := by
  induction l1 with
  | nil =>
    have h0 : findFlightIn fid l2 = none := findFlightIn_eq_none.mpr h2
    simp [findFlightIn, h0, hf]
  | cons x l1 ih =>
    simp [findFlightIn, ih]

theorem findFlight_eq_none {fid : String} {rs : List Route} :
    findFlight fid rs = none ↔ ∀ r ∈ rs, ∀ f ∈ r.itineraries, f.flight_id ≠ fid := by
  rw [← scanRoutes_fst (g := id), Option.map_eq_none']
  exact scanRoutes_eq_none

theorem findFlight_last {fid : String} {rs1 rs2 : List Route} {r : Route} {f : Flight}
    (hr : findFlightIn fid r.itineraries = some f)
    (h2 : ∀ r' ∈ rs2, ∀ x ∈ r'.itineraries, x.flight_id ≠ fid) :
    findFlight fid (rs1 ++ r :: rs2) = some (r, f) := by
  induction rs1 with
  | nil =>
    have h0 : findFlight fid rs2 = none := findFlight_eq_none.mpr h2
    simp [findFlight, h0, hr]
  | cons x rs1 ih =>
    simp [findFlight, ih]

theorem scanFlights_eq_some {fid : String} {g : Flight → Flight} {l l' : List Flight}
    {f : Flight} (h : scanFlights fid g l = some (f, l')) :
    ∃ l1 l2, l = l1 ++ f :: l2 ∧ l' = l1 ++ g f :: l2 ∧ f.flight_id = fid ∧
      ∀ x ∈ l2, x.flight_id ≠ fid := by
  induction l generalizing l' with
  | nil => simp [scanFlights] at h
  | cons x xs ih =>
    cases hs : scanFlights fid g xs with
    | some p =>
      obtain ⟨f0, xs'⟩ := p
      rw [scanFlights, hs] at h
      simp only [Option.some.injEq, Prod.mk.injEq] at h
      obtain ⟨rfl, rfl⟩ := h
      obtain ⟨l1, l2, hd1, hd2, hid, hl2⟩ := ih hs
      exact ⟨x :: l1, l2, by simp [hd1], by simp [hd2], hid, hl2⟩
    | none =>
      rw [scanFlights, hs] at h
      by_cases hid : x.flight_id = fid
      · rw [if_pos hid] at h
        simp only [Option.some.injEq, Prod.mk.injEq] at h
        obtain ⟨rfl, rfl⟩ := h
        exact ⟨[], xs, rfl, rfl, hid, scanFlights_eq_none.mp hs⟩
      · rw [if_neg hid] at h
        exact Option.noConfusion h

theorem scanRoutes_eq_some {fid : String} {g : Flight → Flight} {rs rs' : List Route}
    {ro : Route} {f : Flight} (h : scanRoutes fid g rs = some (ro, f, rs')) :
    ∃ rs1 rs2 its', rs = rs1 ++ ro :: rs2 ∧
      rs' = rs1 ++ { ro with itineraries := its' } :: rs2 ∧
      scanFlights fid g ro.itineraries = some (f, its') ∧
      ∀ r ∈ rs2, ∀ x ∈ r.itineraries, x.flight_id ≠ fid := by
  induction rs generalizing rs' with
  | nil => simp [scanRoutes] at h
  | cons r rs ih =>
    cases hs : scanRoutes fid g rs with
    | some p =>
      obtain ⟨ro0, f0, rs0'⟩ := p
      rw [scanRoutes, hs] at h
      simp only [Option.some.injEq, Prod.mk.injEq] at h
      obtain ⟨rfl, rfl, rfl⟩ := h
      obtain ⟨rs1, rs2, its', hd1, hd2, hsf, h4⟩ := ih hs
      exact ⟨r :: rs1, rs2, its', by simp [hd1], by simp [hd2], hsf, h4⟩
    | none =>
      rw [scanRoutes, hs] at h
      cases hf : scanFlights fid g r.itineraries with
      | some p =>
        obtain ⟨f0, its0⟩ := p
        rw [hf] at h
        simp only [Option.some.injEq, Prod.mk.injEq] at h
        obtain ⟨rfl, rfl, rfl⟩ := h
        exact ⟨[], rs, its0, rfl, rfl, hf, scanRoutes_eq_none.mp hs⟩
      | none =>
        rw [hf] at h
        exact Option.noConfusion h

theorem scanRoutes_of_findFlight {fid : String} {g : Flight → Flight} {rs : List Route}
    {r : Route} {f : Flight} (h : findFlight fid rs = some (r, f)) :
    ∃ rs', scanRoutes fid g rs = some (r, f, rs') := by
  cases hs : scanRoutes fid g rs with
  | none =>
    rw [← scanRoutes_fst (g := g), hs] at h
    exact Option.noConfusion h
  | some p =>
    obtain ⟨ro, f0, rs'⟩ := p
    rw [← scanRoutes_fst (g := g), hs] at h
    simp only [Option.map_some', Option.some.injEq, Prod.mk.injEq] at h
    obtain ⟨rfl, rfl⟩ := h
    exact ⟨rs', rfl⟩

theorem scanRoutes_flatten {fid : String} {g : Flight → Flight} {rs rs' : List Route}
    {ro : Route} {f : Flight} (h : scanRoutes fid g rs = some (ro, f, rs')) :
    scanFlights fid g (allFlights rs) = some (f, allFlights rs') := by
  obtain ⟨rs1, rs2, its', h1, h2, h3, h4⟩ := scanRoutes_eq_some h
  obtain ⟨l1, l2, hits, hits', hid, hl2⟩ := scanFlights_eq_some h3
  subst h1 h2
  have e1 : allFlights (rs1 ++ ro :: rs2) =
      (allFlights rs1 ++ l1) ++ f :: (l2 ++ allFlights rs2) := by
    simp [allFlights, hits, List.append_assoc]
  have e2 : allFlights (rs1 ++ { ro with itineraries := its' } :: rs2) =
      (allFlights rs1 ++ l1) ++ g f :: (l2 ++ allFlights rs2) := by
    simp [allFlights, hits', List.append_assoc]
  rw [e1, e2]
  apply scanFlights_last hid
  intro x hx
  rcases List.mem_append.mp hx with hx | hx
  · exact hl2 x hx
  · obtain ⟨r2, hr2, hx2⟩ := List.mem_flatMap.mp hx
    exact h4 r2 hr2 x hx2

/-! ## Concrete data for witnesses -/

/-- A sample price schedule. -/
def exPrices : Prices := { currency := "EUR", adult := 100, child := 60 }

/-- A sample flight with 5 available seats. -/
def flightF1 : Flight :=
  { flight_id := "F1", departureAt := "2019-08-08T09:00:00",
    arrivalAt := "2019-08-08T10:00:00", availableSeats := 5, prices := exPrices }

/-- A sample route X → Y holding `flightF1`. -/
def routeXY : Route :=
  { route_id := "RA", departureDestination := "X", arrivalDestination := "Y",
    itineraries := [flightF1] }

/-- A one-route store. -/
def storeA : List Route := [routeXY]

/-- First of two flights sharing the id `"D"`. -/
def flightD1 : Flight :=
  { flight_id := "D", departureAt := "d1", arrivalAt := "a1",
    availableSeats := 7, prices := { currency := "EUR", adult := 10, child := 5 } }

/-- Second of two flights sharing the id `"D"`. -/
def flightD2 : Flight :=
  { flight_id := "D", departureAt := "d2", arrivalAt := "a2",
    availableSeats := 4, prices := { currency := "EUR", adult := 33, child := 11 } }

/-- A store in which two routes each hold a flight with the same id `"D"`. -/
def storeDup : List Route :=
  [{ route_id := "R1", departureDestination := "X", arrivalDestination := "Y",
     itineraries := [flightD1] },
   { route_id := "R2", departureDestination := "Y", arrivalDestination := "Z",
     itineraries := [flightD2] }]

/-- A flight whose adult price is zero. -/
def flightF0 : Flight :=
  { flight_id := "F0", departureAt := "d0", arrivalAt := "a0",
    availableSeats := 3, prices := { currency := "EUR", adult := 0, child := 0 } }

/-- A store holding only the zero-priced flight. -/
def storeZero : List Route :=
  [{ route_id := "R0", departureDestination := "X", arrivalDestination := "Y",
     itineraries := [flightF0] }]

/-! ## Booking claims -/

/-- Shared backbone of the successful-booking claims: whenever the scan finds
`(r, f)` and the capacity test does not fire, `book` replies with the priced
confirmation built from `r` and `f` and the stored copy of the flight ends
with `f.availableSeats - k` seats. -/
theorem book_found_success (store : List Route) (n fid : String) (k : Int)
    (r : Route) (f : Flight)
    (hfind : findFlight fid store = some (r, f))
    (hcap : ¬ f.availableSeats < k) :
    ∃ store',
      book store n fid k =
        (Resp.success
          { name := n, flightId := fid, numSeats := k,
            totalPrice := k * f.prices.adult,
            departure := r.departureDestination,
            arrival := r.arrivalDestination,
            departureTime := f.departureAt,
            arrivalTime := f.arrivalAt }, store') ∧
      (findFlight fid store').map (fun p => p.2.availableSeats) =
        some (f.availableSeats - k) := by
  obtain ⟨store', hs⟩ := scanRoutes_of_findFlight
    (g := fun f => { f with availableSeats := f.availableSeats - k }) hfind
  refine ⟨store', ?_, ?_⟩
  · simp only [book, hs]
    rw [if_neg hcap]
  · obtain ⟨rs1, rs2, its', h1, h2, h3, h4⟩ := scanRoutes_eq_some hs
    obtain ⟨l1, l2, hits, hits', hid, hl2⟩ := scanFlights_eq_some h3
    subst h2
    have hin : findFlightIn fid ({ r with itineraries := its' } : Route).itineraries =
        some { f with availableSeats := f.availableSeats - k } := by
      show findFlightIn fid its' = _
      rw [hits']
      exact findFlightIn_last hid hl2
    rw [findFlight_last hin h4]
    rfl

/-- **C1**: for every flight located by its identifier in the data store,
booking with `0 ≤ numSeats ≤ availableSeats` succeeds: it decreases that
flight's `availableSeats` by exactly `numSeats` and replies with a
confirmation whose `totalPrice` is `numSeats * adult` (the child price never
enters the formula), together with the passenger name, flight id, seat
count, the owning route's departure/arrival locations and the flight's
timestamps. -/
theorem booking_success_spec (store : List Route) (n fid : String) (k : Int)
    (r : Route) (f : Flight)
    (hfind : findFlight fid store = some (r, f))
    (_h0 : 0 ≤ k) (hcap : k ≤ f.availableSeats) :
    ∃ store',
      book store n fid k =
        (Resp.success
          { name := n, flightId := fid, numSeats := k,
            totalPrice := k * f.prices.adult,
            departure := r.departureDestination,
            arrival := r.arrivalDestination,
            departureTime := f.departureAt,
            arrivalTime := f.arrivalAt }, store') ∧
      (findFlight fid store').map (fun p => p.2.availableSeats) =
        some (f.availableSeats - k) :=
  book_found_success store n fid k r f hfind (by omega)

/-- Witness for C1: booking 2 of the 5 seats of `flightF1` in `storeA`. -/
theorem booking_success_spec_witness :
    ∃ store',
      book storeA "alice" "F1" 2 =
        (Resp.success
          { name := "alice", flightId := "F1", numSeats := 2,
            totalPrice := 2 * flightF1.prices.adult,
            departure := routeXY.departureDestination,
            arrival := routeXY.arrivalDestination,
            departureTime := flightF1.departureAt,
            arrivalTime := flightF1.arrivalAt }, store') ∧
      (findFlight "F1" store').map (fun p => p.2.availableSeats) =
        some (flightF1.availableSeats - 2) :=
  booking_success_spec storeA "alice" "F1" 2 routeXY flightF1
    (by decide) (by decide) (by decide)

/-- **C2**: for every flight found by identifier, booking with `numSeats`
strictly greater than its `availableSeats` replies 400
`"Not enough seats available"` and returns the data store unchanged. -/
theorem booking_capacity_exceeded_spec (store : List Route) (n fid : String)
    (k : Int) (r : Route) (f : Flight)
    (hfind : findFlight fid store = some (r, f))
    (hcap : f.availableSeats < k) :
    book store n fid k = (Resp.failure 400 "Not enough seats available", store) := by
  obtain ⟨store', hs⟩ := scanRoutes_of_findFlight
    (g := fun f => { f with availableSeats := f.availableSeats - k }) hfind
  simp only [book, hs]
  rw [if_pos hcap]

/-- Witness for C2: booking 10 seats on the 5-seat `flightF1` fails with 400
and leaves `storeA` as it was. -/
theorem booking_capacity_exceeded_spec_witness :
    book storeA "bob" "F1" 10 = (Resp.failure 400 "Not enough seats available", storeA) :=
  booking_capacity_exceeded_spec storeA "bob" "F1" 10 routeXY flightF1
    (by decide) (by decide)

/-- **C6**: booking a `flightId` that matches no flight in any route replies
404 `"Flight not found"` and mutates nothing, for every `numSeats` — so an
unknown flight id never reaches the capacity check. -/
theorem booking_not_found_spec (store : List Route) (n fid : String) (k : Int)
    (h : ∀ r ∈ store, ∀ f ∈ r.itineraries, f.flight_id ≠ fid) :
    book store n fid k = (Resp.failure 404 "Flight not found", store) := by
  simp only [book, scanRoutes_eq_none.mpr h]

/-- Witness for C6: booking the unknown id `"ZZ"` (with an absurd seat count)
gives 404, not the capacity error. -/
theorem booking_not_found_spec_witness :
    book storeA "carol" "ZZ" 1000000 = (Resp.failure 404 "Flight not found", storeA) :=
  booking_not_found_spec storeA "carol" "ZZ" 1000000 (by decide)

/-- One booking request preserves the non-negative-seats invariant. -/
theorem book_preserves_nonneg (store : List Route) (n fid : String) (k : Int)
    (h : SeatsNonneg store) : SeatsNonneg (book store n fid k).2 := by
  cases hs : scanRoutes fid (fun f => { f with availableSeats := f.availableSeats - k }) store with
  | none =>
    simp only [book, hs]
    exact h
  | some p =>
    obtain ⟨ro, f, store'⟩ := p
    by_cases hcap : f.availableSeats < k
    · simp only [book, hs, if_pos hcap]
      exact h
    · simp only [book, hs, if_neg hcap]
      obtain ⟨rs1, rs2, its', h1, h2, h3, h4⟩ := scanRoutes_eq_some hs
      obtain ⟨l1, l2, hits, hits', hid, hl2⟩ := scanFlights_eq_some h3
      subst h1 h2
      intro r hr fl hfl
      rcases List.mem_append.mp hr with hmem | hmem
      · exact h r (List.mem_append_left _ hmem) fl hfl
      · rcases List.mem_cons.mp hmem with rfl | hmem2
        · have hfl' : fl ∈ l1 ++ ({ f with availableSeats := f.availableSeats - k }) :: l2 := by
            rw [← hits']
            exact hfl
          have hro : ro ∈ rs1 ++ ro :: rs2 := List.mem_append_right _ (List.mem_cons_self _ _)
          rcases List.mem_append.mp hfl' with hm | hm
          · exact h ro hro fl (by rw [hits]; exact List.mem_append_left _ hm)
          · rcases List.mem_cons.mp hm with rfl | hm2
            · have h0 : 0 ≤ f.availableSeats :=
                h ro hro f (by rw [hits]; exact List.mem_append_right _ (List.mem_cons_self _ _))
              show 0 ≤ f.availableSeats - k
              omega
            · exact h ro hro fl
                (by rw [hits]; exact List.mem_append_right _ (List.mem_cons.mpr (Or.inr hm2)))
        · exact h r (List.mem_append_right _ (List.mem_cons.mpr (Or.inr hmem2))) fl hfl

/-- **C3**: if every flight of the store has `availableSeats ≥ 0`, then after
any sequence of booking requests — whatever their names, flight ids and seat
counts — every flight still has `availableSeats ≥ 0`. -/
theorem seats_nonneg_invariant (store : List Route)
    (reqs : List (String × String × Int)) (h : SeatsNonneg store) :
    SeatsNonneg (bookAll store reqs) := by
  induction reqs generalizing store with
  | nil => exact h
  | cons req reqs ih =>
    obtain ⟨n, fid, k⟩ := req
    exact ih _ (book_preserves_nonneg store n fid k h)

/-- Witness for C3: a mixed request sequence (a normal booking, an oversized
one, an unknown id and a negative count) keeps all seat counts ≥ 0. -/
theorem seats_nonneg_invariant_witness :
    SeatsNonneg (bookAll storeA
      [("a", "F1", 2), ("b", "F1", 99), ("c", "ZZ", 1), ("d", "F1", -3)]) :=
  seats_nonneg_invariant storeA
    [("a", "F1", 2), ("b", "F1", 99), ("c", "ZZ", 1), ("d", "F1", -3)]
    (by unfold SeatsNonneg; decide)

/-- **C9**: when flights share an identifier, the booking scan settles on the
LAST match in scan order over all routes' flights (the `forEach` overwrite
does not short-circuit): its route, capacity and price determine the reply,
and only that last match is mutated — every other position of the flattened
store, including earlier flights with the same id, is returned unchanged. -/
theorem booking_last_match_spec (store : List Route) (n fid : String) (k : Int)
    (f : Flight) (l1 l2 : List Flight)
    (hsplit : allFlights store = l1 ++ f :: l2)
    (hid : f.flight_id = fid)
    (hl2 : ∀ x ∈ l2, x.flight_id ≠ fid)
    (hcap : k ≤ f.availableSeats) :
    ∃ r store', findFlight fid store = some (r, f) ∧
      book store n fid k =
        (Resp.success
          { name := n, flightId := fid, numSeats := k,
            totalPrice := k * f.prices.adult,
            departure := r.departureDestination,
            arrival := r.arrivalDestination,
            departureTime := f.departureAt,
            arrivalTime := f.arrivalAt }, store') ∧
      allFlights store' = l1 ++ { f with availableSeats := f.availableSeats - k } :: l2 := by
  cases hs : scanRoutes fid (fun f => { f with availableSeats := f.availableSeats - k }) store with
  | none =>
    exfalso
    have hall := scanRoutes_eq_none.mp hs
    have hmem : f ∈ allFlights store := by
      rw [hsplit]
      exact List.mem_append_right _ (List.mem_cons_self _ _)
    obtain ⟨r0, hr0, hf0⟩ := List.mem_flatMap.mp hmem
    exact hall r0 hr0 f hf0 hid
  | some p =>
    obtain ⟨ro, f0, store'⟩ := p
    have hflat := scanRoutes_flatten hs
    have hscan : scanFlights fid (fun f => { f with availableSeats := f.availableSeats - k })
        (allFlights store) =
        some (f, l1 ++ { f with availableSeats := f.availableSeats - k } :: l2) := by
      rw [hsplit]
      exact scanFlights_last hid hl2
    rw [hscan] at hflat
    simp only [Option.some.injEq, Prod.mk.injEq] at hflat
    obtain ⟨rfl, hstore'⟩ := hflat
    have hfind : findFlight fid store = some (ro, f) := by
      rw [← scanRoutes_fst
        (g := fun f => { f with availableSeats := f.availableSeats - k }), hs]
      rfl
    refine ⟨ro, store', hfind, ?_, hstore'.symm⟩
    simp only [book, hs]
    rw [if_neg (by omega)]

/-- Witness for C9: `storeDup` holds `flightD1` then `flightD2`, both with id
`"D"`.  Booking 3 seats on `"D"` is served by `flightD2` (price 33, route
`R2` Y → Z); afterwards `flightD1` is untouched and only `flightD2` lost its
seats. -/
theorem booking_last_match_spec_witness :
    ∃ r store', findFlight "D" storeDup = some (r, flightD2) ∧
      book storeDup "dave" "D" 3 =
        (Resp.success
          { name := "dave", flightId := "D", numSeats := 3,
            totalPrice := 3 * flightD2.prices.adult,
            departure := r.departureDestination,
            arrival := r.arrivalDestination,
            departureTime := flightD2.departureAt,
            arrivalTime := flightD2.arrivalAt }, store') ∧
      allFlights store' =
        [flightD1] ++ { flightD2 with availableSeats := flightD2.availableSeats - 3 } :: [] :=
  booking_last_match_spec storeDup "dave" "D" 3 flightD2 [flightD1] []
    (by decide) (by decide) (by decide) (by decide)

/-- Counterexample input for C10: in `storeZero` the flight `"F0"` has
3 seats and an adult price of 0.  Booking `numSeats = -2` is accepted and
raises the seat count from 3 to 5, but the returned `totalPrice` is
`(-2) * 0 = 0`, which is not negative — refuting the claim's unconditional
"returns a negative totalPrice". -/
theorem booking_negative_seats_cex :
    returnedTotalPrice (book storeZero "eve" "F0" (-2)).1 = some 0 ∧
    (findFlight "F0" (book storeZero "eve" "F0" (-2)).2).map
      (fun p => p.2.availableSeats) = some 5 := by
  decide

/-- **C10** (amended): booking an existing flight with strictly negative
`numSeats` is not rejected — the capacity check `availableSeats < numSeats`
fails for any non-negative seat count — so the booking succeeds, strictly
increases the flight's `availableSeats` by `|numSeats|`, and returns
`totalPrice = numSeats * adult`, which is strictly negative whenever the
flight's adult price is strictly positive. -/
theorem booking_negative_seats_spec (store : List Route) (n fid : String) (k : Int)
    (r : Route) (f : Flight)
    (hfind : findFlight fid store = some (r, f))
    (hneg : k < 0) (hpos : 0 ≤ f.availableSeats) :
    ∃ store',
      book store n fid k =
        (Resp.success
          { name := n, flightId := fid, numSeats := k,
            totalPrice := k * f.prices.adult,
            departure := r.departureDestination,
            arrival := r.arrivalDestination,
            departureTime := f.departureAt,
            arrivalTime := f.arrivalAt }, store') ∧
      (findFlight fid store').map (fun p => p.2.availableSeats) =
        some (f.availableSeats - k) ∧
      f.availableSeats < f.availableSeats - k ∧
      (0 < f.prices.adult → k * f.prices.adult < 0) := by
  obtain ⟨store', h1, h2⟩ := book_found_success store n fid k r f hfind (by omega)
  exact ⟨store', h1, h2, by omega,
    fun hadult => mul_neg_of_neg_of_pos hneg hadult⟩

/-- Witness for C10 (amended): booking `-2` seats on `flightF1` (5 seats,
adult price 100) succeeds, leaves 7 seats, and returns `totalPrice = -200`. -/
theorem booking_negative_seats_spec_witness :
    ∃ store',
      book storeA "frank" "F1" (-2) =
        (Resp.success
          { name := "frank", flightId := "F1", numSeats := -2,
            totalPrice := -2 * flightF1.prices.adult,
            departure := routeXY.departureDestination,
            arrival := routeXY.arrivalDestination,
            departureTime := flightF1.departureAt,
            arrivalTime := flightF1.arrivalAt }, store') ∧
      (findFlight "F1" store').map (fun p => p.2.availableSeats) =
        some (flightF1.availableSeats - (-2)) ∧
      flightF1.availableSeats < flightF1.availableSeats - (-2) ∧
      (0 < flightF1.prices.adult → -2 * flightF1.prices.adult < 0) :=
  booking_negative_seats_spec storeA "frank" "F1" (-2) routeXY flightF1
    (by decide) (by decide) (by decide)

/-! ## Direct-flight and connection claims -/

theorem directCond_iff {getTime : String → Int} {dHint aHint : Option String}
    {f : Flight} :
    directCond getTime dHint aHint f = true ↔
      0 < f.availableSeats ∧
      (∀ t, dHint = some t → |getTime t - getTime f.departureAt| ≤ 86400000) ∧
      (∀ t, aHint = some t → |getTime t - getTime f.arrivalAt| ≤ 86400000) := by
  cases dHint <;> cases aHint
  all_goals simp [directCond, Bool.and_eq_true, decide_eq_true_eq]
  all_goals tauto

theorem strLe_data {s t : String} : s.data ≤ t.data ↔ s ≤ t :=
  String.le_iff_toList_le.symm

theorem connCond_iff {getTime : String → Int} {dHint aHint : Option String}
    {d a : Route} {fd fa : Flight} :
    connCond getTime dHint aHint d a fd fa = true ↔
      d.arrivalDestination = a.departureDestination ∧
      fd.arrivalAt ≤ fa.departureAt ∧
      getTime fa.departureAt - getTime fd.arrivalAt < 86400000 ∧
      (∀ t, dHint = some t → getTime fd.departureAt ≤ getTime t + 86400000) ∧
      (∀ t, aHint = some t → fa.arrivalAt = t) := by
  constructor
  · intro h
    unfold connCond at h
    simp only [Bool.and_eq_true] at h
    obtain ⟨⟨⟨⟨h1, h2⟩, h3⟩, h4⟩, h5⟩ := h
    refine ⟨eq_of_beq h1, strLe_data.mp (of_decide_eq_true h2), of_decide_eq_true h3,
      ?_, ?_⟩
    · intro t ht
      rw [ht] at h4
      exact of_decide_eq_true h4
    · intro t ht
      rw [ht] at h5
      exact eq_of_beq h5
  · rintro ⟨h1, h2, h3, h4, h5⟩
    unfold connCond
    simp only [Bool.and_eq_true]
    refine ⟨⟨⟨⟨?_, ?_⟩, ?_⟩, ?_⟩, ?_⟩
    · exact beq_iff_eq.mpr h1
    · exact decide_eq_true (strLe_data.mpr h2)
    · exact decide_eq_true h3
    · cases dHint with
      | none => rfl
      | some u => exact decide_eq_true (h4 u rfl)
    · cases aHint with
      | none => rfl
      | some u => exact beq_iff_eq.mpr (h5 u rfl)

/-- **C5**: the direct-flight query returns exactly the flights lying on a
route whose departure and arrival both equal the requested locations
(case-sensitive string equality), having `availableSeats > 0`, and whose
departure (resp. arrival) timestamp is within 86,400,000 ms of the
departure-time (resp. arrival-time) hint whenever that hint is given — the
86,400,000 ms boundary included.  With both hints absent the hint conditions
are vacuous, so every seat-available matching flight is returned. -/
theorem direct_flights_spec (getTime : String → Int) (store : List Route)
    (departure arrival : String) (dHint aHint : Option String) (f : Flight) :
    f ∈ directFlights getTime store departure arrival dHint aHint ↔
      (∃ r ∈ store, r.departureDestination = departure ∧
        r.arrivalDestination = arrival ∧ f ∈ r.itineraries) ∧
      0 < f.availableSeats ∧
      (∀ t, dHint = some t → |getTime t - getTime f.departureAt| ≤ 86400000) ∧
      (∀ t, aHint = some t → |getTime t - getTime f.arrivalAt| ≤ 86400000) := by
  simp only [directFlights, List.mem_flatMap, List.mem_filter, Bool.and_eq_true,
    beq_iff_eq, directCond_iff]
  constructor
  · rintro ⟨r, ⟨hr, h1, h2⟩, hf, hc1, hc2, hc3⟩
    exact ⟨⟨r, hr, h1, h2, hf⟩, hc1, hc2, hc3⟩
  · rintro ⟨⟨r, hr, h1, h2, hf⟩, hc1, hc2, hc3⟩
    exact ⟨r, ⟨hr, h1, h2⟩, hf, hc1, hc2, hc3⟩

/-- **C4**: a formatted entry is in the connecting-flight result exactly when
it arises from a departing route `d` departing at the requested location, an
arriving route `a` arriving at the requested location, and flights
`fd ∈ d`, `fa ∈ a` with: shared layover point, `fd.arrivalAt ≤
fa.departureAt` as strings, gap strictly below 24 h, the departure hint
(when present) bounding `fd`'s departure from above by hint + 24 h only, and
the arrival hint (when present) equal to `fa.arrivalAt` as an exact string.
No seat-availability condition appears, so pairs with 0 available seats are
included. -/
theorem connection_inclusion_spec (getTime : String → Int) (store : List Route)
    (departureDestination arrivalDestination : String)
    (dHint aHint : Option String) (e : FormattedConn) :
    e ∈ findConnections getTime store departureDestination arrivalDestination
        dHint aHint ↔
      ∃ d a fd fa,
        d ∈ store ∧ d.departureDestination = departureDestination ∧
        a ∈ store ∧ a.arrivalDestination = arrivalDestination ∧
        fd ∈ d.itineraries ∧ fa ∈ a.itineraries ∧
        d.arrivalDestination = a.departureDestination ∧
        fd.arrivalAt ≤ fa.departureAt ∧
        getTime fa.departureAt - getTime fd.arrivalAt < 86400000 ∧
        (∀ t, dHint = some t → getTime fd.departureAt ≤ getTime t + 86400000) ∧
        (∀ t, aHint = some t → fa.arrivalAt = t) ∧
        e = formatConn arrivalDestination
          { departureFlight := fd, arrivalFlight := fa,
            layoverTime := minutesString (getTime fa.departureAt - getTime fd.arrivalAt),
            route := d } := by
  simp only [findConnections, List.mem_map, findConnectionsRaw, List.mem_flatMap,
    List.mem_filter, beq_iff_eq]
  constructor
  · rintro ⟨c, ⟨d, ⟨hd, hd1⟩, a, ⟨ha, ha1⟩, fd, hfd, fa, hfa, hc⟩, rfl⟩
    by_cases h : connCond getTime dHint aHint d a fd fa = true
    · rw [if_pos h] at hc
      simp only [List.mem_singleton] at hc
      subst hc
      obtain ⟨h1, h2, h3, h4, h5⟩ := connCond_iff.mp h
      exact ⟨d, a, fd, fa, hd, hd1, ha, ha1, hfd, hfa, h1, h2, h3, h4, h5, rfl⟩
    · rw [if_neg h] at hc
      exact absurd hc (List.not_mem_nil _)
  · rintro ⟨d, a, fd, fa, hd, hd1, ha, ha1, hfd, hfa, h1, h2, h3, h4, h5, rfl⟩
    refine ⟨{ departureFlight := fd, arrivalFlight := fa,
              layoverTime := minutesString (getTime fa.departureAt - getTime fd.arrivalAt),
              route := d },
            ⟨d, ⟨hd, hd1⟩, a, ⟨ha, ha1⟩, fd, hfd, fa, hfa, ?_⟩, rfl⟩
    rw [if_pos (connCond_iff.mpr ⟨h1, h2, h3, h4, h5⟩)]
    exact List.mem_singleton_self _

/-- The spec example's first flight: on route A (X → Y), arriving at 10:00. -/
def connF1 : Flight :=
  { flight_id := "CF1", departureAt := "09:00", arrivalAt := "10:00",
    availableSeats := 5, prices := exPrices }

/-- The spec example's second flight: on route B (Y → Z), departing at 11:00. -/
def connF2 : Flight :=
  { flight_id := "CF2", departureAt := "11:00", arrivalAt := "12:00",
    availableSeats := 5, prices := exPrices }

/-- The spec example's dataset: Route A (X → Y) with `connF1`, Route B
(Y → Z) with `connF2`. -/
def connStore : List Route :=
  [{ route_id := "A", departureDestination := "X", arrivalDestination := "Y",
     itineraries := [connF1] },
   { route_id := "B", departureDestination := "Y", arrivalDestination := "Z",
     itineraries := [connF2] }]

/-- Epoch milliseconds (within one day) for the example's clock times. -/
def connGetTime (s : String) : Int :=
  if s == "09:00" then 32400000
  else if s == "10:00" then 36000000
  else if s == "11:00" then 39600000
  else if s == "12:00" then 43200000
  else 0

/-- **C7**: each connecting-flight entry carries `layoverTime` rendered from
the arrival-to-departure gap in minutes as `"<N> minutes"`, and a
synthesized two-leg route in which leg 2 runs from the departing route's
arrival destination to the REQUESTED arrival location parameter (not to the
arriving route's own arrival field); entries appear in nested iteration
order — departing routes × arriving routes × departing flights × arriving
flights — with no sorting.  On the spec's example dataset the X → Z query
yields exactly one entry with `layoverTime = "60 minutes"`. -/
theorem connection_entry_shape_spec (getTime : String → Int) (store : List Route)
    (departureDestination arrivalDestination : String) (dHint aHint : Option String) :
    findConnections getTime store departureDestination arrivalDestination dHint aHint =
      ((store.filter fun r => r.departureDestination == departureDestination).flatMap
        fun d =>
          ((store.filter fun r => r.arrivalDestination == arrivalDestination).flatMap
            fun a =>
              (d.itineraries.flatMap fun fd =>
                (a.itineraries.flatMap fun fa =>
                  if connCond getTime dHint aHint d a fd fa then
                    [{ departureFlight := fd
                       arrivalFlight := fa
                       layoverTime :=
                         toString ((getTime fa.departureAt - getTime fd.arrivalAt)
                           / 60000) ++ " minutes"
                       route :=
                         { departureRoute :=
                             { departureDestination := d.departureDestination
                               arrivalDestination := d.arrivalDestination }
                           arrivalRoute :=
                             { departureDestination := d.arrivalDestination
                               arrivalDestination := arrivalDestination } } }]
                  else [])))) ∧
    findConnections connGetTime connStore "X" "Z" none none =
      [{ departureFlight := connF1, arrivalFlight := connF2,
         layoverTime := "60 minutes",
         route :=
           { departureRoute := { departureDestination := "X", arrivalDestination := "Y" },
             arrivalRoute := { departureDestination := "Y", arrivalDestination := "Z" } } }] := by
  constructor
  · simp only [findConnections, findConnectionsRaw, List.map_flatMap, apply_ite,
      List.map_cons, List.map_nil, formatConn, minutesString]
  · rfl

/-- **C8**: an empty direct-flight result is surfaced as a 404 error reply,
distinct from the success reply used whenever the result is non-empty,
while the connecting-flight endpoint always replies success — an empty
connection list is sent as a 200 with an empty sequence. -/
theorem empty_result_handling_spec (getTime : String → Int) (store : List Route)
    (departure arrival : String) (dHint aHint : Option String) :
    (directFlightsEndpoint getTime store departure arrival dHint aHint =
        Resp.failure 404 "No direct flights available" ↔
      directFlights getTime store departure arrival dHint aHint = []) ∧
    (directFlightsEndpoint getTime store departure arrival dHint aHint =
        Resp.success (directFlights getTime store departure arrival dHint aHint) ∨
      directFlightsEndpoint getTime store departure arrival dHint aHint =
        Resp.failure 404 "No direct flights available") ∧
    connectionFlightsEndpoint getTime store departure arrival dHint aHint =
      Resp.success (findConnections getTime store departure arrival dHint aHint) := by
  refine ⟨?_, ?_, rfl⟩
  · by_cases h : (directFlights getTime store departure arrival dHint aHint).length > 0
    · simp only [directFlightsEndpoint, if_pos h]
      constructor
      · intro hx
        exact absurd hx (by simp)
      · intro hx
        rw [hx] at h
        simp at h
    · have hnil : directFlights getTime store departure arrival dHint aHint = [] := by
        cases hl : directFlights getTime store departure arrival dHint aHint with
        | nil => rfl
        | cons x l => rw [hl] at h; simp at h
      simp only [directFlightsEndpoint, if_neg h]
      simp [hnil]
  · by_cases h : (directFlights getTime store departure arrival dHint aHint).length > 0
    · left
      simp only [directFlightsEndpoint, if_pos h]
    · right
      simp only [directFlightsEndpoint, if_neg h]
